import Mathlib

/-!
Verification of the appointment scheduling and conflict-prevention subsystem
of the Healem health-management application.

The definitions below are a shallow embedding of:
  * `backend/models/Appointment.js` — the appointment schema: the `pre('save')`
    time-order hook, the partial unique index on
    `(doctor, appointmentDate, timeSlot.start, timeSlot.end)` scoped to
    `status ∈ {pending, confirmed}`, and the static `checkAvailability`;
  * the appointment router — `POST /` (create), `PATCH /:id/status`,
    `PUT /:id` (update/reschedule) and `GET /doctor/:doctorId/availability`;
  * `validateAppointment` from the validation middleware;
  * `authorizeAppointmentAccess` from `backend/middleware/auth.js`.

Modelling conventions: user/appointment ids are `Nat` (Mongo ObjectId strings
are opaque identifiers; their 24-hex-digit format check is not modelled);
dates are `Nat` millisecond timestamps produced by a date parser restricted to
ISO `YYYY-MM-DD` date-only strings (the only calendar arithmetic the routes
perform is "same exact date" equality and the one-day window
`[date, date + 1 day)` used by the availability route); time-slot times stay
the `HH:MM` strings the code stores, compared exactly as the code compares
them (string order in Mongo queries, minutes-since-midnight in the pre-save
hook).  Appointment fields never read or written by the modelled routes
(`prescription`, `followUpDate`, `estimatedDuration`, `reminderSent`) are
omitted.  The store is a list of appointment documents; a Mongo write that
raises is modelled by an error outcome with the store unchanged
(single-document atomicity).
-/

namespace Healem

/-- Appointment status enum of `appointmentSchema.status`. -/
inductive Status
  | pending
  | confirmed
  | cancelled
  | completed
  | noShow
deriving DecidableEq, Repr

/-- The partial filter of the unique index and every route query use
`status ∈ {pending, confirmed}` as "active". -/
def Status.isActive : Status → Bool
  | .pending => true
  | .confirmed => true
  | _ => false

/-- Caller roles issued by the identity layer (`User.role`). -/
inductive Role
  | patient
  | doctor
  | nurse
  | admin
deriving DecidableEq, Repr

/-- The `timeSlot` subdocument: wall-clock `HH:MM` strings, stored verbatim. -/
structure TimeSlot where
  start : String
  «end» : String
deriving DecidableEq, Repr

/-- An appointment document (fields touched by the modelled routes). -/
structure Appointment where
  id : Nat
  patient : Nat
  doctor : Nat
  appointmentDate : Nat
  timeSlot : TimeSlot
  status : Status
  type : String
  priority : String
  reason : String
  notesPatient : Option String
  notesDoctor : Option String
  notesAdmin : Option String
  cancelledBy : Option Nat
  cancellationReason : Option String
deriving DecidableEq, Repr

/-- A user-directory record as the create route reads it
(`User.findById` followed by `role`/`isActive` checks). -/
structure User where
  id : Nat
  role : Role
  isActive : Bool
deriving DecidableEq, Repr

/-- The appointment collection. -/
abbrev Store := List Appointment

/-! ### String helpers mirroring the JavaScript primitives -/

/-- JavaScript `String.prototype.split(sep)` for a one-character separator, on the
character list of the string: `"a:b" ↦ ["a","b"]`, `"" ↦ [""]`, `":b" ↦ ["","b"]`. -/
def splitChar (c : Char) : List Char → List (List Char)
  | [] => [[]]
  | x :: xs =>
    let r := splitChar c xs
    if x == c then [] :: r
    else
      match r with
      | y :: ys => (x :: y) :: ys
      | [] => [[x]]

/-- JavaScript `Number(s)` for non-negative decimal strings: `Number("") = 0`, digit
strings evaluate, anything else is `NaN` (`none`). -/
def digitsVal (l : List Char) : Option Nat :=
  if l.isEmpty then some 0
  else if l.all Char.isDigit then
    some (l.foldl (fun n c => n * 10 + (c.toNat - '0'.toNat)) 0)
  else none

/-- The computation `s.split(':').map(Number)` followed by `t[0] * 60 + t[1]`, as the
`pre('save')` hook computes minutes; `none` when the result would be `NaN`. -/
def jsTimeMinutes? (s : String) : Option Nat :=
  match (splitChar ':' s.data).map digitsVal with
  | some h :: some m :: _ => some (h * 60 + m)
  | _ => none

/-- Total variant of `jsTimeMinutes?` (defaulting to 0) used to state the
spec-level overlap property over minutes since midnight. -/
def minutesOf (s : String) : Nat := (jsTimeMinutes? s).getD 0

/-- Whitespace trim as `String.prototype.trim` / express-validator `.trim()`. -/
def jsTrim (s : String) : String :=
  ⟨((s.data.dropWhile fun c => c == ' ' || c == '\t' || c == '\n' || c == '\r').reverse.dropWhile
      fun c => c == ' ' || c == '\t' || c == '\n' || c == '\r').reverse⟩

/-- Hour part of the schema/middleware time regex `([0-1]?[0-9]|2[0-3])`. -/
def isHourChars : List Char → Bool
  | [c] => c.isDigit
  | [c1, c2] =>
    ((c1 == '0' || c1 == '1') && c2.isDigit) ||
      (c1 == '2' && (decide ('0' ≤ c2) && decide (c2 ≤ '3')))
  | _ => false

/-- Minute part of the time regex `[0-5][0-9]`. -/
def isMinuteChars : List Char → Bool
  | [c1, c2] => (decide ('0' ≤ c1) && decide (c1 ≤ '5')) && c2.isDigit
  | _ => false

/-- The full time-format regex `^([0-1]?[0-9]|2[0-3]):[0-5][0-9]$` used by the
`timeSlot.start`/`timeSlot.end` schema validators and by `validateAppointment`. -/
def isHM (s : String) : Bool :=
  match splitChar ':' s.data with
  | [h, m] => isHourChars h && isMinuteChars m
  | _ => false

/-- Lexicographic order on character lists. -/
def charListLt : List Char → List Char → Bool
  | [], [] => false
  | [], _ :: _ => true
  | _ :: _, [] => false
  | c :: cs, d :: ds => if c == d then charListLt cs ds else decide (c < d)

/-- The string order Mongo's `$lt`/`$gt` use on the stored `HH:MM` strings
(bytewise UTF-8 comparison, i.e. codepoint-lexicographic). -/
def strLt (s t : String) : Bool := charListLt s.data t.data

/-- One day in milliseconds; the availability route's `nextDay` window. -/
def dayMs : Nat := 86400000

/-- Modelled from the JS `new Date(string)` / ISO-8601 casts, restricted to
date-only `YYYY-MM-DD` strings: a well-formed calendar date maps to a
distinct day timestamp (a multiple of `dayMs`); every other string is an
invalid date (`none`), as `new Date("garbage")` is `Invalid Date`. -/
def parseDate? (s : String) : Option Nat :=
  match splitChar '-' s.data with
  | [y, m, d] =>
    if y.length = 4 ∧ m.length = 2 ∧ d.length = 2 ∧
        y.all Char.isDigit ∧ m.all Char.isDigit ∧ d.all Char.isDigit then
      match digitsVal y, digitsVal m, digitsVal d with
      | some yn, some mn, some dn =>
        if 1 ≤ mn ∧ mn ≤ 12 ∧ 1 ≤ dn ∧ dn ≤ 31 then
          some ((yn * 372 + (mn - 1) * 31 + (dn - 1)) * dayMs)
        else none
      | _, _, _ => none
    else none
  | _ => none

/-! ### The appointment schema (`backend/models/Appointment.js`) -/

/-- The `pre('save')` hook: reject (`End time must be after start time`) iff
both times evaluate to numbers and `startMinutes >= endMinutes`; a `NaN`
comparison is false in JS, so malformed times pass the hook. -/
def preSaveRejects (ts : TimeSlot) : Bool :=
  match jsTimeMinutes? ts.start, jsTimeMinutes? ts.«end» with
  | some s, some e => decide (e ≤ s)
  | _, _ => false

/-- Equality of the composite key `(doctor, appointmentDate, timeSlot.start,
timeSlot.end)` of the partial unique index. -/
def sameKey (a b : Appointment) : Bool :=
  a.doctor == b.doctor && a.appointmentDate == b.appointmentDate &&
    a.timeSlot.start == b.timeSlot.start && a.timeSlot.«end» == b.timeSlot.«end»

/-- Duplicate-key test for inserting a new document `a`: some stored document
in an active status (hence present in the partial index) shares the key. -/
def insertConflict (store : Store) (a : Appointment) : Bool :=
  store.any fun x => x.status.isActive && sameKey x a

/-- Duplicate-key test when an existing document `a` (re-)enters the partial
index on update: some other stored active document shares the key. -/
def updateConflict (store : Store) (a : Appointment) : Bool :=
  store.any fun x => !(x.id == a.id) && x.status.isActive && sameKey x a

/-- The static `Appointment.checkAvailability(doctorId, date, timeSlot)`: no active
appointment of the doctor on that exact date satisfies
`timeSlot.start < end ∧ timeSlot.end > start`; the Mongo `$lt`/`$gt` compare
the stored `HH:MM` strings. -/
def checkAvailability (store : Store) (doctorId : Nat) (date : Nat) (ts : TimeSlot) : Bool :=
  !(store.any fun a =>
    a.doctor == doctorId && a.appointmentDate == date &&
      strLt a.timeSlot.start ts.«end» && strLt ts.start a.timeSlot.«end» &&
      a.status.isActive)

/-! ### Create booking (`POST /`) -/

/-- Request body of `POST /` (after JSON parsing). -/
structure CreateRequest where
  doctor : Nat
  appointmentDate : String
  timeSlot : TimeSlot
  reason : String
  type : Option String
  priority : Option String
deriving DecidableEq, Repr

def typeValues : List String :=
  ["consultation", "follow-up", "check-up", "emergency", "surgery"]

def priorityValues : List String := ["low", "medium", "high", "urgent"]

/-- The `validateAppointment` middleware: ISO date strictly after `now`,
`HH:MM` times, trimmed reason length in `[10, 500]`, optional enum fields.
(The `doctor` Mongo-id format check is not modelled; ids are opaque.) -/
def validOk (now : Nat) (req : CreateRequest) : Bool :=
  (match parseDate? req.appointmentDate with
   | some d => decide (now < d)
   | none => false) &&
  isHM req.timeSlot.start && isHM req.timeSlot.«end» &&
  decide (10 ≤ (jsTrim req.reason).length) && decide ((jsTrim req.reason).length ≤ 500) &&
  (match req.type with
   | some t => typeValues.contains t
   | none => true) &&
  (match req.priority with
   | some p => priorityValues.contains p
   | none => true)

/-- Doctor lookup `User.findById(doctor)` then `role === 'doctor' && isActive`. -/
def doctorOk (users : List User) (did : Nat) : Bool :=
  match users.find? fun u => u.id == did with
  | some u => u.role == .doctor && u.isActive
  | none => false

/-- Id generated at creation: larger than every id already stored. -/
def freshId (store : Store) : Nat :=
  (store.foldr (fun a n => max a.id n) 0) + 1

/-- The document `new Appointment({...})` built by the create route: status
always starts `pending`, `type`/`priority` default, reason trimmed by the
middleware sanitizer. -/
def mkAppointment (store : Store) (pid : Nat) (req : CreateRequest) (d : Nat) : Appointment :=
  { id := freshId store
    patient := pid
    doctor := req.doctor
    appointmentDate := d
    timeSlot := req.timeSlot
    status := .pending
    type := req.type.getD "consultation"
    priority := req.priority.getD "medium"
    reason := jsTrim req.reason
    notesPatient := none
    notesDoctor := none
    notesAdmin := none
    cancelledBy := none
    cancellationReason := none }

inductive CreateOutcome
  | forbidden                  -- 403 from `authorize('patient')`
  | badRequest                 -- 400 from `validateAppointment`
  | invalidDoctor              -- 400 "Invalid or inactive doctor selected"
  | serverError                -- 500 (a save error other than code 11000)
  | slotConflict               -- 409 (duplicate key 11000 mapped by the route)
  | created (a : Appointment)  -- 201
deriving DecidableEq, Repr

/-- Route `POST /`: authorize patient, validate, resolve the doctor, save; within
`save`, schema validation passed already (the middleware checked the same
facts), then the `pre('save')` hook (any failure is rethrown, reaching the
generic 500 handler), then the unique-index write, whose code-11000 error the
route maps to 409. On success the document is appended. -/
def createAppointment (users : List User) (store : Store) (now : Nat)
    (pid : Nat) (role : Role) (req : CreateRequest) : CreateOutcome × Store :=
  if !(role == .patient) then (.forbidden, store)
  else if !(validOk now req) then (.badRequest, store)
  else if !(doctorOk users req.doctor) then (.invalidDoctor, store)
  else
    let d := (parseDate? req.appointmentDate).getD 0
    if preSaveRejects req.timeSlot then (.serverError, store)
    else
      let a := mkAppointment store pid req d
      if insertConflict store a then (.slotConflict, store)
      else (.created a, store ++ [a])

/-! ### Shared route plumbing -/

/-- Middleware `authorizeAppointmentAccess`: caller is the appointment's patient or
doctor (by id), or an admin/nurse. -/
def accessOk (uid : Nat) (role : Role) (a : Appointment) : Bool :=
  uid == a.patient || uid == a.doctor || role == .admin || role == .nurse

/-- Replace the saved document in the collection (write-back by id). -/
def saveReplace (store : Store) (a : Appointment) : Store :=
  store.map fun x => if x.id == a.id then a else x

/-! ### Status update (`PATCH /:id/status`) -/

structure StatusRequest where
  status : String
  notes : Option String
deriving DecidableEq, Repr

def validStatuses : List String :=
  ["pending", "confirmed", "cancelled", "completed", "no-show"]

/-- Decode a member of `validStatuses`. -/
def statusOfString (s : String) : Status :=
  if s == "pending" then .pending
  else if s == "confirmed" then .confirmed
  else if s == "cancelled" then .cancelled
  else if s == "completed" then .completed
  else .noShow

/-- The route's `canUpdateStatus` predicate: admin and nurse always; the
owning doctor always; the owning patient only when the requested status is
`'cancelled'`. The current status is never consulted. -/
def canUpdateStatus (uid : Nat) (role : Role) (a : Appointment) (status : String) : Bool :=
  role == .admin || role == .nurse ||
    (role == .doctor && uid == a.doctor) ||
    (role == .patient && uid == a.patient && status == "cancelled")

/-- Field writes of the status route: set `status`; on `'cancelled'` set
`cancelledBy`/`cancellationReason`; a truthy `notes` lands in the note field
of the caller's role. -/
def applyStatusChange (uid : Nat) (role : Role) (a : Appointment)
    (req : StatusRequest) : Appointment :=
  let a1 := { a with status := statusOfString req.status }
  let a2 :=
    if req.status == "cancelled" then
      { a1 with cancelledBy := some uid, cancellationReason := req.notes }
    else a1
  match req.notes with
  | some n =>
    if n.data.isEmpty then a2
    else
      match role with
      | .doctor => { a2 with notesDoctor := some n }
      | .patient => { a2 with notesPatient := some n }
      | _ => { a2 with notesAdmin := some n }
  | none => a2

/-- Schema `maxlength` validators of the note path written by this request
(1000 for patient/doctor notes, 500 for admin notes). -/
def notesWriteOk (role : Role) (req : StatusRequest) : Bool :=
  match req.notes with
  | some n =>
    n.data.isEmpty ||
      (match role with
       | .doctor => decide (n.length ≤ 1000)
       | .patient => decide (n.length ≤ 1000)
       | _ => decide (n.length ≤ 500))
  | none => true

inductive StatusOutcome
  | notFound                   -- 404
  | accessDenied               -- 403 from `authorizeAppointmentAccess`
  | invalidStatus              -- 400 "Invalid status"
  | forbidden                  -- 403 "Not authorized to update appointment status"
  | serverError                -- 500 (any save error; the route has no 11000 branch)
  | updated (a : Appointment)  -- 200
deriving DecidableEq, Repr

/-- Route `PATCH /:id/status`. The save can fail on the note validators, on the
`pre('save')` hook, or on the partial unique index when the document
(re-)enters it by moving from an inactive to an active status while another
active document holds the same key; each surfaces as the generic 500. -/
def updateStatus (store : Store) (uid : Nat) (role : Role) (apptId : Nat)
    (req : StatusRequest) : StatusOutcome × Store :=
  match store.find? fun a => a.id == apptId with
  | none => (.notFound, store)
  | some a =>
    if !(accessOk uid role a) then (.accessDenied, store)
    else if !(validStatuses.contains req.status) then (.invalidStatus, store)
    else if !(canUpdateStatus uid role a req.status) then (.forbidden, store)
    else
      let a' := applyStatusChange uid role a req
      if !(notesWriteOk role req) then (.serverError, store)
      else if preSaveRejects a'.timeSlot then (.serverError, store)
      else if a'.status.isActive && !(a.status.isActive) && updateConflict store a' then
        (.serverError, store)
      else (.updated a', saveReplace store a')

/-! ### Update / reschedule (`PUT /:id`) -/

structure UpdateRequest where
  appointmentDate : Option String
  timeSlot : Option TimeSlot
  reason : Option String
  type : Option String
  priority : Option String
deriving DecidableEq, Repr

/-- The route's `canUpdate` predicate: admin, nurse, or the owning patient
while the appointment is still `pending`. -/
def canUpdate (uid : Nat) (role : Role) (a : Appointment) : Bool :=
  role == .admin || role == .nurse ||
    (role == .patient && uid == a.patient && a.status == .pending)

/-- Field writes of the update route (`if (x) appointment.x = x` truthiness;
the schema trims `reason` on assignment). -/
def applyUpdates (a : Appointment) (dts : Option (Nat × TimeSlot))
    (req : UpdateRequest) : Appointment :=
  let a1 :=
    match dts with
    | some (d, ts) => { a with appointmentDate := d, timeSlot := ts }
    | none => a
  let a2 :=
    match req.reason with
    | some r => if r.data.isEmpty then a1 else { a1 with reason := jsTrim r }
    | none => a1
  let a3 :=
    match req.type with
    | some t => if t.data.isEmpty then a2 else { a2 with type := t }
    | none => a2
  match req.priority with
  | some p => if p.data.isEmpty then a3 else { a3 with priority := p }
  | none => a3

/-- Schema validators of the paths modified by a `PUT` save: a changed date
must still be in the future, changed times must match the `HH:MM` regex,
a changed reason at most 500 characters, changed `type`/`priority` in their
enums. -/
def updateValidOk (a a' : Appointment) (now : Nat) : Bool :=
  (a'.appointmentDate == a.appointmentDate || decide (now < a'.appointmentDate)) &&
  (a'.timeSlot.start == a.timeSlot.start || isHM a'.timeSlot.start) &&
  (a'.timeSlot.«end» == a.timeSlot.«end» || isHM a'.timeSlot.«end») &&
  (a'.reason == a.reason || decide (a'.reason.length ≤ 500)) &&
  (a'.type == a.type || typeValues.contains a'.type) &&
  (a'.priority == a.priority || priorityValues.contains a'.priority)

inductive UpdateOutcome
  | notFound                   -- 404
  | accessDenied               -- 403 from `authorizeAppointmentAccess`
  | forbidden                  -- 403 "Not authorized to update this appointment..."
  | conflict                   -- 409 "Doctor is not available at the selected time slot"
  | serverError                -- 500 (any save error; the route has no 11000 branch)
  | updated (a : Appointment)  -- 200
deriving DecidableEq, Repr

/-- The save phase shared by both `PUT` branches: schema validators on the
modified paths, the `pre('save')` hook, and the partial-index write when an
active document's key changed; every failure reaches the generic 500 handler. -/
def finishUpdate (store : Store) (a : Appointment) (dts : Option (Nat × TimeSlot))
    (req : UpdateRequest) (now : Nat) : UpdateOutcome × Store :=
  let a' := applyUpdates a dts req
  if !(updateValidOk a a' now) then (.serverError, store)
  else if preSaveRejects a'.timeSlot then (.serverError, store)
  else if a'.status.isActive && !(sameKey a a') && updateConflict store a' then
    (.serverError, store)
  else (.updated a', saveReplace store a')

/-- Route `PUT /:id`: authorization, then — only when both `appointmentDate` and
`timeSlot` are (truthily) present — `checkAvailability` with the raw date
cast to a Date (an unparsable date makes the query throw, reaching the
generic 500 handler), rejecting with 409 when unavailable; then the save. -/
def updateAppointment (store : Store) (uid : Nat) (role : Role) (now : Nat)
    (apptId : Nat) (req : UpdateRequest) : UpdateOutcome × Store :=
  match store.find? fun a => a.id == apptId with
  | none => (.notFound, store)
  | some a =>
    if !(accessOk uid role a) then (.accessDenied, store)
    else if !(canUpdate uid role a) then (.forbidden, store)
    else
      match req.appointmentDate, req.timeSlot with
      | some ds, some ts =>
        if ds.data.isEmpty then finishUpdate store a none req now
        else
          match parseDate? ds with
          | none => (.serverError, store)
          | some d =>
            if checkAvailability store a.doctor d ts then
              finishUpdate store a (some (d, ts)) req now
            else (.conflict, store)
      | _, _ => finishUpdate store a none req now

/-! ### Availability (`GET /doctor/:doctorId/availability`) -/

/-- The fixed working-hours template of the availability route. -/
def workingHours : List String :=
  ["09:00", "09:30", "10:00", "10:30", "11:00", "11:30",
   "14:00", "14:30", "15:00", "15:30", "16:00", "16:30"]

/-- The `bookedAppointments` query: the doctor's active appointments whose
date lies in `[searchDate, nextDay)`. -/
def fetchBooked (store : Store) (doctorId : Nat) (d : Nat) : List Appointment :=
  store.filter fun a =>
    a.doctor == doctorId && decide (d ≤ a.appointmentDate) &&
      decide (a.appointmentDate < d + dayMs) && a.status.isActive

inductive AvailOutcome
  | missingDate                -- 400 "Date parameter is required"
  | serverError                -- 500 (the invalid-date cast throws in the query)
  | ok (availableSlots : List String) (bookedSlots : List TimeSlot)  -- 200
deriving DecidableEq, Repr

/-- Route `GET /doctor/:doctorId/availability`: a missing (or falsy empty) `date`
is a 400; a present but unparsable `date` makes the store query throw a cast
error, caught by the generic 500 handler; otherwise a template slot is
available iff no fetched appointment's `timeSlot.start` equals it. -/
def getAvailability (store : Store) (doctorId : Nat) (date : Option String) : AvailOutcome :=
  match date with
  | none => .missingDate
  | some s =>
    if s.data.isEmpty then .missingDate
    else
      match parseDate? s with
      | none => .serverError
      | some d =>
        let booked := (fetchBooked store doctorId d).map (·.timeSlot)
        .ok (workingHours.filter fun slot => !(booked.any fun ts => ts.start == slot)) booked

/-! ### Spec-level properties -/

/-- Written from the spec's invariant: half-open minute intervals of two
slots do not overlap. -/
def slotsMinuteDisjoint (t1 t2 : TimeSlot) : Bool :=
  decide (minutesOf t1.«end» ≤ minutesOf t2.start) ||
    decide (minutesOf t2.«end» ≤ minutesOf t1.start)

/-- Written from the spec's invariant (claim C1): every pair of distinct
stored active appointments of one doctor on one date has non-overlapping
minute intervals. -/
def activeNoOverlap (store : Store) : Prop :=
  store.Pairwise fun a b =>
    (a.status.isActive && b.status.isActive && a.doctor == b.doctor &&
        a.appointmentDate == b.appointmentDate &&
        !(slotsMinuteDisjoint a.timeSlot b.timeSlot)) = false

/-- The invariant the partial unique index actually maintains: no two
distinct stored active appointments share the full
`(doctor, appointmentDate, timeSlot.start, timeSlot.end)` key. -/
def distinctActiveKeys (store : Store) : Prop :=
  store.Pairwise fun a b => (a.status.isActive && b.status.isActive && sameKey a b) = false

/-- Well-formed collection: document ids are distinct (Mongo `_id`s are
unique). -/
def WFStore (store : Store) : Prop :=
  (store.map fun a => a.id).Nodup

/-! ### Concrete scenario used by counterexamples and witnesses -/

def demoUsers : List User := [⟨1, .doctor, true⟩]

def demoDate : Nat := (parseDate? "2099-01-01").getD 0

def reqA : CreateRequest :=
  ⟨1, "2099-01-01", ⟨"09:00", "10:00"⟩, "Annual physical exam", none, none⟩

def reqOverlap : CreateRequest := { reqA with timeSlot := ⟨"09:00", "09:30"⟩ }

def apptA : Appointment := mkAppointment [] 100 reqA demoDate

def apptB : Appointment := mkAppointment [apptA] 101 reqOverlap demoDate

def apptP : Appointment :=
  { id := 5, patient := 100, doctor := 1, appointmentDate := demoDate,
    timeSlot := ⟨"09:00", "09:30"⟩, status := .pending, type := "consultation",
    priority := "medium", reason := "Annual physical exam",
    notesPatient := none, notesDoctor := none, notesAdmin := none,
    cancelledBy := none, cancellationReason := none }

def apptConfirmed : Appointment := { apptP with status := .confirmed }

def reschedReq : UpdateRequest :=
  ⟨some "2099-01-01", some ⟨"09:00", "10:00"⟩, none, none, none⟩

def reqX : CreateRequest := { reqA with timeSlot := ⟨"09:00", "09:45"⟩ }

def apptX : Appointment := mkAppointment [] 100 reqX demoDate

def apptS : Appointment := mkAppointment [apptX] 101 reqOverlap demoDate

def apptScancelled : Appointment :=
  { apptS with status := .cancelled, cancelledBy := some 101 }

def apptS0 : Appointment := mkAppointment [] 100 reqOverlap demoDate

def apptS0cancelled : Appointment :=
  { apptS0 with status := .cancelled, cancelledBy := some 100 }

def availAfterBook : List String :=
  ["09:30", "10:00", "10:30", "11:00", "11:30",
   "14:00", "14:30", "15:00", "15:30", "16:00", "16:30"]

def reqShortReason : CreateRequest := { reqA with reason := "Too short" }

def reqBadOrder : CreateRequest := { reqA with timeSlot := ⟨"10:00", "09:00"⟩ }

instance decActiveNoOverlap (store : Store) : Decidable (activeNoOverlap store) := by
  unfold activeNoOverlap; infer_instance

instance decDistinctActiveKeys (store : Store) : Decidable (distinctActiveKeys store) := by
  unfold distinctActiveKeys; infer_instance

instance decWFStore (store : Store) : Decidable (WFStore store) := by
  unfold WFStore; infer_instance

/-! ### Helper lemmas -/

theorem sameKey_iff {a b : Appointment} :
    sameKey a b = true ↔
      a.doctor = b.doctor ∧ a.appointmentDate = b.appointmentDate ∧
        a.timeSlot.start = b.timeSlot.start ∧ a.timeSlot.«end» = b.timeSlot.«end» := by
  simp [sameKey, and_assoc]

theorem sameKey_symm {a b : Appointment} (h : sameKey a b = true) : sameKey b a = true := by
  rw [sameKey_iff] at h ⊢
  exact ⟨h.1.symm, h.2.1.symm, h.2.2.1.symm, h.2.2.2.symm⟩

theorem sameKey_congr_left {a a' y : Appointment}
    (hd : a'.doctor = a.doctor) (had : a'.appointmentDate = a.appointmentDate)
    (hts : a'.timeSlot = a.timeSlot) :
    sameKey a' y = sameKey a y := by
  simp [sameKey, hd, had, hts]

theorem eq_of_mem_of_id_eq {store : Store} (hWF : WFStore store) {x y : Appointment}
    (hx : x ∈ store) (hy : y ∈ store) (h : x.id = y.id) : x = y :=
  List.inj_on_of_nodup_map hWF hx hy h

theorem id_le_fold {store : Store} {x : Appointment} (hx : x ∈ store) :
    x.id ≤ store.foldr (fun a n => max a.id n) 0 := by
  induction store with
  | nil => cases hx
  | cons a l ih =>
    rcases List.mem_cons.mp hx with rfl | hx'
    · exact Nat.le_max_left _ _
    · exact Nat.le_trans (ih hx') (Nat.le_max_right _ _)

theorem id_ne_freshId {store : Store} {x : Appointment} (hx : x ∈ store) :
    x.id ≠ freshId store := by
  have := id_le_fold hx
  unfold freshId
  omega

theorem createAppointment_created {users : List User} {store : Store} {now pid : Nat}
    {role : Role} {req : CreateRequest} {a : Appointment} {st' : Store}
    (h : createAppointment users store now pid role req = (.created a, st')) :
    role = .patient ∧ validOk now req = true ∧ doctorOk users req.doctor = true ∧
      preSaveRejects req.timeSlot = false ∧
      a = mkAppointment store pid req ((parseDate? req.appointmentDate).getD 0) ∧
      insertConflict store a = false ∧ st' = store ++ [a] := by
  unfold createAppointment at h
  cases hrole : (role == Role.patient) <;> simp [hrole] at h
  cases hv : validOk now req <;> simp [hv] at h
  cases hd : doctorOk users req.doctor <;> simp [hd] at h
  cases hp : preSaveRejects req.timeSlot <;> simp [hp] at h
  cases hc : insertConflict store (mkAppointment store pid req ((parseDate? req.appointmentDate).getD 0)) <;>
    simp [hc] at h
  obtain ⟨ha, hst⟩ := h
  exact ⟨beq_iff_eq.mp hrole, rfl, rfl, rfl, ha.symm, ha ▸ hc, hst ▸ (ha ▸ rfl)⟩

theorem insertConflict_eq_false_iff {store : Store} {a : Appointment} :
    insertConflict store a = false ↔
      ∀ x ∈ store, ¬(x.status.isActive = true ∧ sameKey x a = true) := by
  unfold insertConflict
  rw [List.any_eq_false]
  constructor
  · intro h x hx ⟨h1, h2⟩
    exact h x hx (by rw [h1, h2]; rfl)
  · intro h x hx hb
    rw [Bool.and_eq_true] at hb
    exact h x hx ⟨hb.1, hb.2⟩

theorem updateConflict_eq_false_iff {store : Store} {a : Appointment} :
    updateConflict store a = false ↔
      ∀ x ∈ store, x.id ≠ a.id → ¬(x.status.isActive = true ∧ sameKey x a = true) := by
  unfold updateConflict
  rw [List.any_eq_false]
  constructor
  · intro h x hx hne ⟨h1, h2⟩
    have := h x hx
    simp [h1, h2, hne] at this
  · intro h x hx
    by_cases hne : x.id = a.id
    · simp [hne]
    · cases h1 : x.status.isActive
      · simp [h1]
      · cases h2 : sameKey x a
        · simp [h2]
        · exact absurd ⟨h1, h2⟩ (h x hx hne)

theorem create_preserves_distinctActiveKeys {users : List User} {store : Store}
    {now pid : Nat} {role : Role} {req : CreateRequest} {out : CreateOutcome} {st' : Store}
    (hInv : distinctActiveKeys store)
    (h : createAppointment users store now pid role req = (out, st')) :
    distinctActiveKeys st' := by
  unfold createAppointment at h
  cases hrole : (role == Role.patient) <;> simp [hrole] at h
  case false => exact h.2 ▸ hInv
  cases hv : validOk now req <;> simp [hv] at h
  case false => exact h.2 ▸ hInv
  cases hd : doctorOk users req.doctor <;> simp [hd] at h
  case false => exact h.2 ▸ hInv
  cases hp : preSaveRejects req.timeSlot <;> simp [hp] at h
  case true => exact h.2 ▸ hInv
  cases hc : insertConflict store (mkAppointment store pid req ((parseDate? req.appointmentDate).getD 0)) <;>
    simp [hc] at h
  case true => exact h.2 ▸ hInv
  rw [← h.2]
  unfold distinctActiveKeys at hInv ⊢
  rw [List.pairwise_append]
  refine ⟨hInv, List.pairwise_singleton _ _, ?_⟩
  intro x hx b hb
  rw [List.mem_singleton] at hb
  subst hb
  have hno := insertConflict_eq_false_iff.mp hc x hx
  cases h1 : x.status.isActive <;> simp [h1]
  cases h2 : sameKey x (mkAppointment store pid req ((parseDate? req.appointmentDate).getD 0))
  · simp [h2]
  · exact absurd ⟨h1, h2⟩ hno

theorem sameKey_congr_of_sameKey {a a' y : Appointment} (h : sameKey a a' = true) :
    sameKey a' y = sameKey a y := by
  rw [sameKey_iff] at h
  unfold sameKey
  rw [← h.1, ← h.2.1, ← h.2.2.1, ← h.2.2.2]

theorem sameKey_congr_right_of_sameKey {a a' x : Appointment} (h : sameKey a a' = true) :
    sameKey x a' = sameKey x a := by
  rw [sameKey_iff] at h
  unfold sameKey
  rw [← h.1, ← h.2.1, ← h.2.2.1, ← h.2.2.2]

theorem saveReplace_preserves_distinctActiveKeys {store : Store} {a a' : Appointment}
    (hWF : WFStore store) (hInv : distinctActiveKeys store)
    (ha : a ∈ store) (hid : a'.id = a.id)
    (hsafe : a'.status.isActive = true →
      (sameKey a a' = true ∧ a.status.isActive = true) ∨ updateConflict store a' = false) :
    distinctActiveKeys (saveReplace store a') := by
  have hisneq : store.Pairwise fun x y => x.id ≠ y.id := by
    have hWF' := hWF
    unfold WFStore List.Nodup at hWF'
    rw [List.pairwise_map] at hWF'
    exact hWF'
  unfold distinctActiveKeys at hInv ⊢
  unfold saveReplace
  rw [List.pairwise_map]
  refine List.Pairwise.imp_of_mem ?_ (hInv.and hisneq)
  intro x y hxmem hymem hRne
  obtain ⟨hR, hne⟩ := hRne
  by_cases hx : x.id = a'.id <;> by_cases hy : y.id = a'.id
  · exact absurd (hx.trans hy.symm) hne
  · -- x is the saved document
    have hxa : x = a := eq_of_mem_of_id_eq hWF hxmem ha (hx.trans hid)
    subst hxa
    simp only [beq_iff_eq, hx, hy, if_true, if_false, if_pos, if_neg, not_false_eq_true]
    cases hact' : a'.status.isActive
    · simp [hact']
    · cases hyact : y.status.isActive
      · simp [hyact]
      · cases hk : sameKey a' y
        · simp [hk]
        · exfalso
          rcases hsafe hact' with ⟨hks, hact⟩ | hconf
          · rw [sameKey_congr_of_sameKey hks] at hk
            simp [hact, hyact, hk] at hR
          · have hno := updateConflict_eq_false_iff.mp hconf y hymem hy
            exact hno ⟨hyact, sameKey_symm hk⟩
  · -- y is the saved document
    have hya : y = a := eq_of_mem_of_id_eq hWF hymem ha (hy.trans hid)
    subst hya
    simp only [beq_iff_eq, hx, hy, if_true, if_false, if_pos, if_neg, not_false_eq_true]
    cases hact' : a'.status.isActive
    · simp [hact']
    · cases hxact : x.status.isActive
      · simp [hxact]
      · cases hk : sameKey x a'
        · simp [hk]
        · exfalso
          rcases hsafe hact' with ⟨hks, hact⟩ | hconf
          · rw [sameKey_congr_right_of_sameKey hks] at hk
            simp [hact, hxact, hk] at hR
          · have hno := updateConflict_eq_false_iff.mp hconf x hxmem hx
            exact hno ⟨hxact, hk⟩
  · simp only [beq_iff_eq, hx, hy, if_false, if_neg, not_false_eq_true]
    exact hR

theorem applyStatusChange_fields (uid : Nat) (role : Role) (a : Appointment)
    (req : StatusRequest) :
    (applyStatusChange uid role a req).id = a.id ∧
      (applyStatusChange uid role a req).patient = a.patient ∧
      (applyStatusChange uid role a req).doctor = a.doctor ∧
      (applyStatusChange uid role a req).appointmentDate = a.appointmentDate ∧
      (applyStatusChange uid role a req).timeSlot = a.timeSlot ∧
      (applyStatusChange uid role a req).status = statusOfString req.status := by
  unfold applyStatusChange
  cases hn : req.notes <;>
    by_cases hc : req.status == "cancelled" <;>
    cases role <;>
    simp [hn, hc] <;>
    split <;> simp

theorem applyUpdates_fields (a : Appointment) (dts : Option (Nat × TimeSlot))
    (req : UpdateRequest) :
    (applyUpdates a dts req).id = a.id ∧
      (applyUpdates a dts req).patient = a.patient ∧
      (applyUpdates a dts req).doctor = a.doctor ∧
      (applyUpdates a dts req).status = a.status := by
  unfold applyUpdates
  rcases dts with _ | ⟨d, ts⟩ <;>
    cases hr : req.reason <;> cases ht : req.type <;> cases hp : req.priority <;>
    simp [hr, ht, hp] <;>
    (repeat' split) <;> simp

theorem applyUpdates_some_date (a : Appointment) (d : Nat) (ts : TimeSlot)
    (req : UpdateRequest) :
    (applyUpdates a (some (d, ts)) req).appointmentDate = d ∧
      (applyUpdates a (some (d, ts)) req).timeSlot = ts := by
  unfold applyUpdates
  cases hr : req.reason <;> cases ht : req.type <;> cases hp : req.priority <;>
    simp [hr, ht, hp] <;>
    (repeat' split) <;> simp

theorem sameKey_applyStatusChange (uid : Nat) (role : Role) (a : Appointment)
    (req : StatusRequest) : sameKey a (applyStatusChange uid role a req) = true := by
  obtain ⟨_, _, hdoc, hdate, hts, _⟩ := applyStatusChange_fields uid role a req
  rw [sameKey_iff]
  exact ⟨hdoc.symm, hdate.symm, by rw [hts], by rw [hts]⟩

theorem updateStatus_preserves_distinctActiveKeys {store : Store} {uid : Nat}
    {role : Role} {apptId : Nat} {req : StatusRequest} {out : StatusOutcome} {st' : Store}
    (hWF : WFStore store) (hInv : distinctActiveKeys store)
    (h : updateStatus store uid role apptId req = (out, st')) :
    distinctActiveKeys st' := by
  unfold updateStatus at h
  cases hfind : store.find? (fun a => a.id == apptId) <;> rw [hfind] at h
  case none => simp at h; exact h.2 ▸ hInv
  case some a =>
  have hamem := List.mem_of_find?_eq_some hfind
  cases hacc : accessOk uid role a <;> simp [hacc] at h
  next => exact h.2 ▸ hInv
  by_cases hvs : req.status ∈ validStatuses <;> simp [hvs] at h
  rotate_left 1
  next => exact h.2 ▸ hInv
  cases hcan : canUpdateStatus uid role a req.status <;> simp [hcan] at h
  next => exact h.2 ▸ hInv
  cases hnw : notesWriteOk role req <;> simp [hnw] at h
  next => exact h.2 ▸ hInv
  cases hp : preSaveRejects (applyStatusChange uid role a req).timeSlot <;> simp [hp] at h
  rotate_left 1
  next => exact h.2 ▸ hInv
  by_cases hcond : ((applyStatusChange uid role a req).status.isActive = true ∧
      a.status.isActive = false) ∧
      updateConflict store (applyStatusChange uid role a req) = true <;>
    simp [hcond] at h
  next => exact h.2 ▸ hInv
  rw [← h.2]
  refine saveReplace_preserves_distinctActiveKeys hWF hInv hamem
    (applyStatusChange_fields uid role a req).1 ?_
  intro hact'
  cases hact : a.status.isActive
  · right
    cases hconf : updateConflict store (applyStatusChange uid role a req)
    · rfl
    · exact absurd ⟨⟨hact', hact⟩, hconf⟩ hcond
  · exact Or.inl ⟨sameKey_applyStatusChange uid role a req, rfl⟩

theorem finishUpdate_preserves_distinctActiveKeys {store : Store} {a : Appointment}
    {dts : Option (Nat × TimeSlot)} {req : UpdateRequest} {now : Nat}
    {out : UpdateOutcome} {st' : Store}
    (hWF : WFStore store) (hInv : distinctActiveKeys store) (ha : a ∈ store)
    (h : finishUpdate store a dts req now = (out, st')) :
    distinctActiveKeys st' := by
  unfold finishUpdate at h
  cases hv : updateValidOk a (applyUpdates a dts req) now <;> simp [hv] at h
  next => exact h.2 ▸ hInv
  cases hp : preSaveRejects (applyUpdates a dts req).timeSlot <;> simp [hp] at h
  rotate_left 1
  next => exact h.2 ▸ hInv
  by_cases hcond : ((applyUpdates a dts req).status.isActive = true ∧
      sameKey a (applyUpdates a dts req) = false) ∧
      updateConflict store (applyUpdates a dts req) = true <;>
    simp [hcond] at h
  next => exact h.2 ▸ hInv
  rw [← h.2]
  refine saveReplace_preserves_distinctActiveKeys hWF hInv ha
    (applyUpdates_fields a dts req).1 ?_
  intro hact'
  cases hk : sameKey a (applyUpdates a dts req)
  · right
    cases hconf : updateConflict store (applyUpdates a dts req)
    · rfl
    · exact absurd ⟨⟨hact', hk⟩, hconf⟩ hcond
  · left
    refine ⟨rfl, ?_⟩
    rw [← (applyUpdates_fields a dts req).2.2.2]
    exact hact'

theorem update_preserves_distinctActiveKeys {store : Store} {uid : Nat}
    {role : Role} {now apptId : Nat} {req : UpdateRequest} {out : UpdateOutcome} {st' : Store}
    (hWF : WFStore store) (hInv : distinctActiveKeys store)
    (h : updateAppointment store uid role now apptId req = (out, st')) :
    distinctActiveKeys st' := by
  unfold updateAppointment at h
  cases hfind : store.find? (fun a => a.id == apptId) <;> rw [hfind] at h
  case none => simp at h; exact h.2 ▸ hInv
  case some a =>
  have hamem := List.mem_of_find?_eq_some hfind
  cases hacc : accessOk uid role a <;> simp [hacc] at h
  next => exact h.2 ▸ hInv
  cases hcan : canUpdate uid role a <;> simp [hcan] at h
  next => exact h.2 ▸ hInv
  cases hda : req.appointmentDate with
  | none =>
    cases hts : req.timeSlot with
    | none =>
      simp [hda, hts] at h
      exact finishUpdate_preserves_distinctActiveKeys hWF hInv hamem h
    | some ts =>
      simp [hda, hts] at h
      exact finishUpdate_preserves_distinctActiveKeys hWF hInv hamem h
  | some ds =>
    cases hts : req.timeSlot with
    | none =>
      simp [hda, hts] at h
      exact finishUpdate_preserves_distinctActiveKeys hWF hInv hamem h
    | some ts =>
      simp [hda, hts] at h
      by_cases hde : ds.data = [] <;> simp [hde] at h
      next => exact finishUpdate_preserves_distinctActiveKeys hWF hInv hamem h
      cases hpd : parseDate? ds <;> simp [hpd] at h
      next => exact h.2 ▸ hInv
      next d =>
        cases hav : checkAvailability store a.doctor d ts <;> simp [hav] at h
        next => exact h.2 ▸ hInv
        next => exact finishUpdate_preserves_distinctActiveKeys hWF hInv hamem h

/-- C1 (counterexample): two successful create operations leave the store with
two active appointments of the same doctor on the same date whose minute
intervals [540,600) and [540,570) overlap — the create path only blocks an
identical (start,end) pair, so the claimed no-overlap invariant is not
preserved by create. -/
theorem c1_counterexample :
    createAppointment demoUsers [] 0 100 .patient reqA = (.created apptA, [apptA]) ∧
      createAppointment demoUsers [apptA] 0 101 .patient reqOverlap =
        (.created apptB, [apptA, apptB]) ∧
      ¬ activeNoOverlap [apptA, apptB] := by
  refine ⟨?_, ?_, ?_⟩ <;> decide

/-- C1 (amended): what every create, status-change and update/reschedule
operation does preserve is identical-slot uniqueness: no two distinct stored
active appointments of one doctor on one date share the full
(timeSlot.start, timeSlot.end) pair. -/
theorem c1_identical_slot_uniqueness (store : Store)
    (hWF : WFStore store) (hInv : distinctActiveKeys store) :
    (∀ users now pid role req out st₁,
        createAppointment users store now pid role req = (out, st₁) →
          distinctActiveKeys st₁) ∧
      (∀ uid role apptId sreq out st₂,
          updateStatus store uid role apptId sreq = (out, st₂) →
            distinctActiveKeys st₂) ∧
      (∀ uid role now apptId ureq out st₃,
          updateAppointment store uid role now apptId ureq = (out, st₃) →
            distinctActiveKeys st₃) :=
  ⟨fun _ _ _ _ _ _ _ h => create_preserves_distinctActiveKeys hInv h,
    fun _ _ _ _ _ _ h => updateStatus_preserves_distinctActiveKeys hWF hInv h,
    fun _ _ _ _ _ _ _ h => update_preserves_distinctActiveKeys hWF hInv h⟩

theorem c1_identical_slot_uniqueness_witness :
    WFStore [apptP] ∧ distinctActiveKeys [apptP] ∧
      distinctActiveKeys ((createAppointment demoUsers [apptP] 0 101 .patient reqA).2) :=
  ⟨by decide, by decide,
    (c1_identical_slot_uniqueness [apptP] (by decide) (by decide)).1 demoUsers 0 101 .patient
      reqA (createAppointment demoUsers [apptP] 0 101 .patient reqA).1
      (createAppointment demoUsers [apptP] 0 101 .patient reqA).2 rfl⟩

/-- C2 (confirmed): a booking attempt for a doctor/date/start/end identical to
a stored active appointment fails with the 409 slot-conflict outcome and the
store is unchanged; and of two attempts for the identical slot the second one
always fails with that conflict, so exactly one succeeds. -/
theorem c2_slot_conflict :
    (∀ (users : List User) (store : Store) (now pid : Nat) (req : CreateRequest)
        (d : Nat) (b : Appointment),
        validOk now req = true → doctorOk users req.doctor = true →
        preSaveRejects req.timeSlot = false →
        parseDate? req.appointmentDate = some d →
        b ∈ store → b.status.isActive = true → b.doctor = req.doctor →
        b.appointmentDate = d → b.timeSlot = req.timeSlot →
        createAppointment users store now pid .patient req = (.slotConflict, store)) ∧
      (∀ (users : List User) (store : Store) (now pid1 pid2 : Nat) (role1 : Role)
          (req : CreateRequest) (a : Appointment) (st' : Store),
          createAppointment users store now pid1 role1 req = (.created a, st') →
          createAppointment users st' now pid2 .patient req = (.slotConflict, st')) := by
  constructor
  · intro users store now pid req d b hv hd hp hpd hmem hact hdoc hdate hts
    have hconf : insertConflict store
        (mkAppointment store pid req ((parseDate? req.appointmentDate).getD 0)) = true := by
      rw [insertConflict, List.any_eq_true]
      refine ⟨b, hmem, ?_⟩
      rw [Bool.and_eq_true]
      refine ⟨hact, ?_⟩
      rw [sameKey_iff, hpd]
      simp [mkAppointment, hdoc, hdate, hts]
    unfold createAppointment
    simp [hv, hd, hp, hconf]
  · intro users store now pid1 pid2 role1 req a st' h
    obtain ⟨hrole, hv, hd, hp, ha, hconf, hst⟩ := createAppointment_created h
    subst hst
    have hconf2 : insertConflict (store ++ [a])
        (mkAppointment (store ++ [a]) pid2 req ((parseDate? req.appointmentDate).getD 0)) =
          true := by
      rw [insertConflict, List.any_eq_true]
      refine ⟨a, by simp, ?_⟩
      rw [Bool.and_eq_true]
      constructor
      · rw [ha]; rfl
      · rw [sameKey_iff, ha]
        simp [mkAppointment]
    unfold createAppointment
    simp [hv, hd, hp, hconf2]

theorem c2_slot_conflict_witness :
    createAppointment demoUsers [apptP] 0 101 .patient reqOverlap =
      (.slotConflict, [apptP]) :=
  c2_slot_conflict.1 demoUsers [apptP] 0 101 reqOverlap demoDate apptP (by decide) (by decide)
    (by decide) (by decide) (by decide) (by decide) (by decide) (by decide) (by decide)

/-- C3 (counterexample): an admin requests pending → completed, a pair that is
not a row of the claimed transition table; the status route accepts it and
stores the new status instead of failing with InvalidTransition. -/
theorem c3_counterexample :
    updateStatus [apptP] 7 .admin 5 ⟨"completed", none⟩ =
      (.updated { apptP with status := .completed },
        [{ apptP with status := .completed }]) := by
  decide

/-- C3 (amended): the status route enforces only a role predicate, not a
transition table: when the role predicate fails the request fails with the
403 outcome and the store is unchanged, and when it holds (and the save does
not fail) any requested valid status is stored regardless of the current
status. -/
theorem c3_role_gate :
    ∀ (store : Store) (uid : Nat) (role : Role) (apptId : Nat) (req : StatusRequest)
      (a : Appointment),
      store.find? (fun x => x.id == apptId) = some a →
      accessOk uid role a = true →
      req.status ∈ validStatuses →
      (canUpdateStatus uid role a req.status = false →
        updateStatus store uid role apptId req = (.forbidden, store)) ∧
      (canUpdateStatus uid role a req.status = true →
        notesWriteOk role req = true →
        preSaveRejects a.timeSlot = false →
        ¬(((applyStatusChange uid role a req).status.isActive = true ∧
            a.status.isActive = false) ∧
            updateConflict store (applyStatusChange uid role a req) = true) →
        ∃ a', updateStatus store uid role apptId req = (.updated a', saveReplace store a') ∧
          a'.status = statusOfString req.status) := by
  intro store uid role apptId req a hfind hacc hvs
  constructor
  · intro hcan
    unfold updateStatus
    rw [hfind]
    simp [hacc, hvs, hcan]
  · intro hcan hnw hp hcond
    have hp' : preSaveRejects (applyStatusChange uid role a req).timeSlot = false := by
      rw [(applyStatusChange_fields uid role a req).2.2.2.2.1]
      exact hp
    refine ⟨applyStatusChange uid role a req, ?_,
      (applyStatusChange_fields uid role a req).2.2.2.2.2⟩
    unfold updateStatus
    rw [hfind]
    simp [hacc, hvs, hcan, hnw, hp', hcond]

theorem c3_role_gate_witness :
    updateStatus [apptP] 100 .patient 5 ⟨"confirmed", none⟩ = (.forbidden, [apptP]) :=
  ((c3_role_gate [apptP] 100 .patient 5 ⟨"confirmed", none⟩ apptP (by decide) (by decide)
    (by decide)).1 (by decide))

theorem parseDate?_data_ne {s : String} {d : Nat} (h : parseDate? s = some d) :
    s.data.isEmpty = false := by
  cases hd : s.data with
  | nil =>
    unfold parseDate? at h
    rw [hd] at h
    simp [splitChar] at h
  | cons c l => rfl

theorem getAvailability_eq {store : Store} {did : Nat} {s : String} {d : Nat}
    (hpd : parseDate? s = some d) :
    getAvailability store did (some s) =
      .ok (workingHours.filter fun slot =>
          !(((fetchBooked store did d).map (·.timeSlot)).any fun ts => ts.start == slot))
        ((fetchBooked store did d).map (·.timeSlot)) := by
  unfold getAvailability
  simp [parseDate?_data_ne hpd, hpd]

theorem find?_append_fresh {store : Store} {a : Appointment}
    (hne : ∀ x ∈ store, x.id ≠ a.id) :
    (store ++ [a]).find? (fun x => x.id == a.id) = some a := by
  induction store with
  | nil => simp [List.find?]
  | cons b l ih =>
    have hb : (b.id == a.id) = false := by
      simp only [beq_eq_false_iff_ne, ne_eq]
      exact hne b (List.mem_cons_self b l)
    rw [List.cons_append]
    rw [List.find?_cons]
    rw [hb]
    exact ih fun x hx => hne x (List.mem_cons_of_mem b hx)

theorem map_replace_id {store : Store} {a' : Appointment}
    (hne : ∀ x ∈ store, x.id ≠ a'.id) :
    (store.map fun x => if x.id == a'.id then a' else x) = store := by
  induction store with
  | nil => rfl
  | cons b l ih =>
    have hb : (b.id == a'.id) = false := by
      simp only [beq_eq_false_iff_ne, ne_eq]
      exact hne b (List.mem_cons_self b l)
    simp only [List.map_cons, hb, Bool.false_eq_true, if_false]
    rw [ih fun x hx => hne x (List.mem_cons_of_mem b hx)]

theorem saveReplace_append_fresh {store : Store} {a a' : Appointment}
    (hne : ∀ x ∈ store, x.id ≠ a'.id) (hid : a'.id = a.id) :
    saveReplace (store ++ [a]) a' = store ++ [a'] := by
  unfold saveReplace
  rw [List.map_append, map_replace_id hne]
  simp [hid]

theorem updateStatus_updated {store : Store} {uid : Nat} {role : Role} {apptId : Nat}
    {req : StatusRequest} {a' : Appointment} {st' : Store}
    (h : updateStatus store uid role apptId req = (.updated a', st')) :
    ∃ a, store.find? (fun x => x.id == apptId) = some a ∧
      a' = applyStatusChange uid role a req ∧ st' = saveReplace store a' := by
  unfold updateStatus at h
  cases hfind : store.find? (fun x => x.id == apptId) <;> rw [hfind] at h
  case none => simp at h
  case some a =>
  refine ⟨a, rfl, ?_⟩
  cases hacc : accessOk uid role a <;> simp [hacc] at h
  by_cases hvs : req.status ∈ validStatuses <;> simp [hvs] at h
  cases hcan : canUpdateStatus uid role a req.status <;> simp [hcan] at h
  cases hnw : notesWriteOk role req <;> simp [hnw] at h
  cases hp : preSaveRejects (applyStatusChange uid role a req).timeSlot <;> simp [hp] at h
  by_cases hcond : ((applyStatusChange uid role a req).status.isActive = true ∧
      a.status.isActive = false) ∧
      updateConflict store (applyStatusChange uid role a req) = true <;>
    simp [hcond] at h
  exact ⟨h.1.symm, h.2.symm ▸ (h.1 ▸ rfl)⟩

/-- C4 (counterexample): in a reachable state the round trip fails: a booking
09:00–09:45 exists, a second booking of template slot 09:00(–09:30) succeeds
(only the identical pair is blocked), and after that second booking is
cancelled the slot "09:00" is still missing from availableSlots, because the
first booking also starts at 09:00. -/
theorem c4_counterexample :
    createAppointment demoUsers [] 0 100 .patient reqX = (.created apptX, [apptX]) ∧
      createAppointment demoUsers [apptX] 0 101 .patient reqOverlap =
        (.created apptS, [apptX, apptS]) ∧
      updateStatus [apptX, apptS] 101 .patient apptS.id ⟨"cancelled", none⟩ =
        (.updated apptScancelled, [apptX, apptScancelled]) ∧
      "09:00" ∈ workingHours ∧
      getAvailability [apptX, apptScancelled] 1 (some "2099-01-01") =
        .ok ["09:30", "10:00", "10:30", "11:00", "11:30",
             "14:00", "14:30", "15:00", "15:30", "16:00", "16:30"]
          [⟨"09:00", "09:45"⟩] ∧
      "09:00" ∉ ["09:30", "10:00", "10:30", "11:00", "11:30",
                 "14:00", "14:30", "15:00", "15:30", "16:00", "16:30"] := by
  refine ⟨?_, ?_, ?_, ?_, ?_, ?_⟩ <;> decide

/-- C4 (amended): after a successful booking, the availability query for the
booked doctor and date excludes the booked start from availableSlots and
lists the booked timeSlot in bookedSlots; after that booking is cancelled the
slot start is again in availableSlots provided it is a template slot and no
other active appointment of that doctor in the same day window starts at it
(in particular when the slot was available before booking). -/
theorem c4_availability_roundtrip :
    ∀ (users : List User) (store : Store) (now pid : Nat) (req : CreateRequest)
      (a : Appointment) (st' : Store) (d : Nat),
      createAppointment users store now pid .patient req = (.created a, st') →
      parseDate? req.appointmentDate = some d →
      (∀ avail booked,
          getAvailability st' req.doctor (some req.appointmentDate) = .ok avail booked →
          req.timeSlot.start ∉ avail ∧ req.timeSlot ∈ booked) ∧
        (∀ (uid : Nat) (role : Role) (sreq : StatusRequest) (a' : Appointment) (st'' : Store),
          updateStatus st' uid role a.id sreq = (.updated a', st'') →
          sreq.status = "cancelled" →
          (∀ x ∈ store, x.doctor = req.doctor → d ≤ x.appointmentDate →
            x.appointmentDate < d + dayMs → x.status.isActive = true →
            x.timeSlot.start ≠ req.timeSlot.start) →
          req.timeSlot.start ∈ workingHours →
          ∀ avail2 booked2,
            getAvailability st'' req.doctor (some req.appointmentDate) = .ok avail2 booked2 →
            req.timeSlot.start ∈ avail2) := by
  intro users store now pid req a st' d hcr hpd
  obtain ⟨-, hv, hd, hp, ha, hconf, hst⟩ := createAppointment_created hcr
  have hdgetD : (parseDate? req.appointmentDate).getD 0 = d := by rw [hpd]; rfl
  have hamem : a ∈ st' := hst ▸ List.mem_append_right store (List.mem_singleton_self a)
  have hafetch : a ∈ fetchBooked st' req.doctor d := by
    unfold fetchBooked
    rw [List.mem_filter]
    refine ⟨hamem, ?_⟩
    rw [ha, mkAppointment]
    simp only [hdgetD]
    simp [Status.isActive, dayMs]
  have hts_mem : req.timeSlot ∈ (fetchBooked st' req.doctor d).map (·.timeSlot) := by
    have := List.mem_map_of_mem (·.timeSlot) hafetch
    rw [ha] at this
    exact this
  constructor
  · intro avail booked hav
    rw [getAvailability_eq hpd] at hav
    injection hav with h1 h2
    subst h1 h2
    refine ⟨?_, hts_mem⟩
    intro hmem
    rw [List.mem_filter] at hmem
    have hany := hmem.2
    rw [Bool.not_eq_eq_eq_not, Bool.not_true, List.any_eq_false] at hany
    exact absurd (beq_self_eq_true req.timeSlot.start) (hany req.timeSlot hts_mem)
  · intro uid role sreq a' st'' hupd hcanc hother hWH avail2 booked2 hav2
    obtain ⟨b, hbfind, ha', hst''⟩ := updateStatus_updated hupd
    have hfresh : ∀ x ∈ store, x.id ≠ a.id := by
      intro x hx
      rw [ha]
      exact id_ne_freshId hx
    have hfind_eq : st'.find? (fun x => x.id == a.id) = some a := by
      rw [hst]
      exact find?_append_fresh hfresh
    have hb : b = a := by
      rw [hbfind] at hfind_eq
      exact Option.some.inj hfind_eq
    subst hb
    have hstatus' : a'.status = .cancelled := by
      rw [ha', (applyStatusChange_fields uid role b sreq).2.2.2.2.2, hcanc]
      rfl
    have hid' : a'.id = b.id := by
      rw [ha']
      exact (applyStatusChange_fields uid role b sreq).1
    have hrepl : st'' = store ++ [a'] := by
      rw [hst'', hst]
      exact saveReplace_append_fresh (fun x hx => hid' ▸ hfresh x hx) hid'
    have hfetch2 : fetchBooked st'' req.doctor d = fetchBooked store req.doctor d := by
      rw [hrepl]
      unfold fetchBooked
      rw [List.filter_append]
      have : List.filter (fun x =>
          x.doctor == req.doctor && decide (d ≤ x.appointmentDate) &&
            decide (x.appointmentDate < d + dayMs) && x.status.isActive) [a'] = [] := by
        simp [hstatus', Status.isActive]
      rw [this, List.append_nil]
    rw [getAvailability_eq hpd] at hav2
    injection hav2 with h1 h2
    subst h1 h2
    rw [List.mem_filter]
    refine ⟨hWH, ?_⟩
    rw [Bool.not_eq_eq_eq_not, Bool.not_true, List.any_eq_false]
    intro ts htsmem
    rw [hfetch2] at htsmem
    rw [List.mem_map] at htsmem
    obtain ⟨x, hxmem, hxts⟩ := htsmem
    have hxfilt := List.of_mem_filter hxmem
    rw [Bool.and_eq_true, Bool.and_eq_true, Bool.and_eq_true] at hxfilt
    obtain ⟨⟨⟨hxdoc, hxd1⟩, hxd2⟩, hxact⟩ := hxfilt
    have hne := hother x (List.mem_of_mem_filter hxmem) (beq_iff_eq.mp hxdoc)
      (of_decide_eq_true hxd1) (of_decide_eq_true hxd2) hxact
    rw [← hxts]
    exact fun hbeq => hne (beq_iff_eq.mp hbeq)

theorem c4_availability_roundtrip_witness :
    (reqOverlap.timeSlot.start ∉ availAfterBook ∧
        reqOverlap.timeSlot ∈ [apptS0.timeSlot]) ∧
      reqOverlap.timeSlot.start ∈ workingHours := by
  have T := c4_availability_roundtrip demoUsers [] 0 100 reqOverlap apptS0 [apptS0] demoDate
    (by decide) (by decide)
  exact ⟨T.1 availAfterBook [apptS0.timeSlot] (by decide),
    T.2 100 .patient ⟨"cancelled", none⟩ apptS0cancelled [apptS0cancelled] (by decide) rfl
      (by intro x hx; cases hx) (by decide) workingHours [] (by decide)⟩

/-- C5 (counterexample): the owning patient cancels a *confirmed* appointment
and the route accepts it: the role predicate only requires the requested
status to be "cancelled" and never inspects the current status, so the claim
that this fails with Forbidden is false. -/
theorem c5_counterexample :
    updateStatus [apptConfirmed] 100 .patient 5 ⟨"cancelled", none⟩ =
      (.updated { apptConfirmed with status := .cancelled, cancelledBy := some 100 },
        [{ apptConfirmed with status := .cancelled, cancelledBy := some 100 }]) := by
  decide

/-- C5 (amended): an owning patient may trigger exactly the transition to
cancelled, but from any current status (confirmed included); an owning
patient's request for any status other than "cancelled" fails with the 403
outcome and the store is unchanged. -/
theorem c5_patient_cancel :
    ∀ (store : Store) (uid apptId : Nat) (a : Appointment) (sreq : StatusRequest),
      store.find? (fun x => x.id == apptId) = some a →
      uid = a.patient →
      sreq.status ∈ validStatuses →
      (sreq.status = "cancelled" →
        notesWriteOk .patient sreq = true →
        preSaveRejects a.timeSlot = false →
        ∃ a', updateStatus store uid .patient apptId sreq =
            (.updated a', saveReplace store a') ∧ a'.status = .cancelled) ∧
      (sreq.status ≠ "cancelled" →
        updateStatus store uid .patient apptId sreq = (.forbidden, store)) := by
  intro store uid apptId a sreq hfind huid hvs
  constructor
  · intro hcanc hnw hp
    have hacc : accessOk uid .patient a = true := by
      unfold accessOk
      rw [huid]
      simp
    have hcan : canUpdateStatus uid .patient a sreq.status = true := by
      unfold canUpdateStatus
      rw [huid, hcanc]
      simp
    have hst' : (applyStatusChange uid .patient a sreq).status = .cancelled := by
      rw [(applyStatusChange_fields uid .patient a sreq).2.2.2.2.2, hcanc]
      rfl
    have hp' : preSaveRejects (applyStatusChange uid .patient a sreq).timeSlot = false := by
      rw [(applyStatusChange_fields uid .patient a sreq).2.2.2.2.1]
      exact hp
    have hcond : ¬(((applyStatusChange uid .patient a sreq).status.isActive = true ∧
        a.status.isActive = false) ∧
        updateConflict store (applyStatusChange uid .patient a sreq) = true) := by
      intro hc
      rw [hst'] at hc
      exact absurd hc.1.1 (by decide)
    refine ⟨_, ?_, hst'⟩
    unfold updateStatus
    rw [hfind]
    simp [hacc, hvs, hcan, hnw, hp', hcond]
  · intro hne
    have hacc : accessOk uid .patient a = true := by
      unfold accessOk
      rw [huid]
      simp
    have hcan : canUpdateStatus uid .patient a sreq.status = false := by
      unfold canUpdateStatus
      simp [hne]
    unfold updateStatus
    rw [hfind]
    simp [hacc, hvs, hcan]

theorem c5_patient_cancel_witness :
    ∃ a', updateStatus [apptConfirmed] 100 .patient 5 ⟨"cancelled", none⟩ =
        (.updated a', saveReplace [apptConfirmed] a') ∧ a'.status = .cancelled :=
  (c5_patient_cancel [apptConfirmed] 100 5 apptConfirmed ⟨"cancelled", none⟩ (by decide) rfl
    (by decide)).1 rfl (by decide) (by decide)

theorem checkAvailability_eq_false_iff {store : Store} {did date : Nat} {ts : TimeSlot} :
    checkAvailability store did date ts = false ↔
      ∃ x ∈ store, x.doctor = did ∧ x.appointmentDate = date ∧ x.status.isActive = true ∧
        strLt x.timeSlot.start ts.«end» = true ∧ strLt ts.start x.timeSlot.«end» = true := by
  unfold checkAvailability
  rw [Bool.not_eq_false']
  rw [List.any_eq_true]
  constructor
  · rintro ⟨x, hx, hb⟩
    rw [Bool.and_eq_true, Bool.and_eq_true, Bool.and_eq_true, Bool.and_eq_true] at hb
    obtain ⟨⟨⟨⟨h1, h2⟩, h3⟩, h4⟩, h5⟩ := hb
    exact ⟨x, hx, beq_iff_eq.mp h1, beq_iff_eq.mp h2, h5, h3, h4⟩
  · rintro ⟨x, hx, h1, h2, h3, h4, h5⟩
    refine ⟨x, hx, ?_⟩
    rw [Bool.and_eq_true, Bool.and_eq_true, Bool.and_eq_true, Bool.and_eq_true]
    exact ⟨⟨⟨⟨beq_iff_eq.mpr h1, beq_iff_eq.mpr h2⟩, h4⟩, h5⟩, h3⟩

theorem finishUpdate_ne_conflict {store : Store} {a : Appointment}
    {dts : Option (Nat × TimeSlot)} {req : UpdateRequest} {now : Nat} {st₂ : Store} :
    finishUpdate store a dts req now ≠ (.conflict, st₂) := by
  intro h
  unfold finishUpdate at h
  cases hv : updateValidOk a (applyUpdates a dts req) now <;> simp [hv] at h
  cases hp : preSaveRejects (applyUpdates a dts req).timeSlot <;> simp [hp] at h
  by_cases hcond : ((applyUpdates a dts req).status.isActive = true ∧
      sameKey a (applyUpdates a dts req) = false) ∧
      updateConflict store (applyUpdates a dts req) = true <;>
    simp [hcond] at h

theorem finishUpdate_updated {store : Store} {a : Appointment}
    {dts : Option (Nat × TimeSlot)} {req : UpdateRequest} {now : Nat}
    {a' : Appointment} {st' : Store}
    (h : finishUpdate store a dts req now = (.updated a', st')) :
    a' = applyUpdates a dts req ∧ st' = saveReplace store a' := by
  unfold finishUpdate at h
  cases hv : updateValidOk a (applyUpdates a dts req) now <;> simp [hv] at h
  cases hp : preSaveRejects (applyUpdates a dts req).timeSlot <;> simp [hp] at h
  by_cases hcond : ((applyUpdates a dts req).status.isActive = true ∧
      sameKey a (applyUpdates a dts req) = false) ∧
      updateConflict store (applyUpdates a dts req) = true <;>
    simp [hcond] at h
  refine ⟨h.1.symm, ?_⟩
  rw [← h.2, h.1]

theorem updateAppointment_both (now : Nat) {store : Store} {uid : Nat} {role : Role}
    {apptId : Nat} {req : UpdateRequest} {a : Appointment} {ds : String}
    {ts : TimeSlot} {d : Nat}
    (hfind : store.find? (fun x => x.id == apptId) = some a)
    (hacc : accessOk uid role a = true) (hcan : canUpdate uid role a = true)
    (hda : req.appointmentDate = some ds) (hne : ds.data ≠ [])
    (hpd : parseDate? ds = some d) (hts : req.timeSlot = some ts) :
    updateAppointment store uid role now apptId req =
      (if checkAvailability store a.doctor d ts then
        finishUpdate store a (some (d, ts)) req now
      else (.conflict, store)) := by
  unfold updateAppointment
  rw [hfind]
  simp [hacc, hcan, hda, hts, hne, hpd]

/-- C6 (counterexample): rescheduling a pending appointment to a wider slot on
the same date conflicts only with the appointment's own stored record (the
self-exclusion check `updateConflict` confirms nothing else holds the slot),
yet the route answers 409 and leaves the appointment unchanged — the
availability check does not exclude the appointment's own slot. -/
theorem c6_counterexample :
    updateConflict [apptP] { apptP with timeSlot := ⟨"09:00", "10:00"⟩ } = false ∧
      updateAppointment [apptP] 100 .patient 0 5 reschedReq = (.conflict, [apptP]) := by
  refine ⟨?_, ?_⟩ <;> decide

/-- C6 (amended): when both a new date and a new timeSlot are supplied, the
route re-runs `checkAvailability` against all of the doctor's active
appointments on that date without excluding the appointment's own record, so
a new slot that overlaps only the appointment's own active record is rejected
with the 409 outcome and the store is unchanged; when the check passes and
the save succeeds, appointmentDate and timeSlot are updated together. -/
theorem c6_reschedule_conflict_check :
    ∀ (store : Store) (uid : Nat) (role : Role) (now apptId : Nat) (req : UpdateRequest)
      (a : Appointment) (ds : String) (ts : TimeSlot) (d : Nat),
      store.find? (fun x => x.id == apptId) = some a →
      accessOk uid role a = true →
      canUpdate uid role a = true →
      req.appointmentDate = some ds →
      ds.data ≠ [] →
      parseDate? ds = some d →
      req.timeSlot = some ts →
      (checkAvailability store a.doctor d ts = false →
        updateAppointment store uid role now apptId req = (.conflict, store)) ∧
        (a.status.isActive = true → a.appointmentDate = d →
          strLt a.timeSlot.start ts.«end» = true → strLt ts.start a.timeSlot.«end» = true →
          updateAppointment store uid role now apptId req = (.conflict, store)) ∧
        (∀ (a' : Appointment) (st' : Store),
          updateAppointment store uid role now apptId req = (.updated a', st') →
          a'.appointmentDate = d ∧ a'.timeSlot = ts) := by
  intro store uid role now apptId req a ds ts d hfind hacc hcan hda hne hpd hts
  have hboth := updateAppointment_both now hfind hacc hcan hda hne hpd hts
  refine ⟨?_, ?_, ?_⟩
  · intro hcheck
    rw [hboth, hcheck]
    rfl
  · intro hact hdate hlt1 hlt2
    have hcheck : checkAvailability store a.doctor d ts = false :=
      checkAvailability_eq_false_iff.mpr
        ⟨a, List.mem_of_find?_eq_some hfind, rfl, hdate, hact, hlt1, hlt2⟩
    rw [hboth, hcheck]
    rfl
  · intro a' st' h
    rw [hboth] at h
    cases hcheck : checkAvailability store a.doctor d ts <;> simp [hcheck] at h
    obtain ⟨ha', -⟩ := finishUpdate_updated h
    rw [ha']
    exact applyUpdates_some_date a d ts req

theorem c6_reschedule_conflict_check_witness :
    updateAppointment [apptP] 100 .patient 0 5 reschedReq = (.conflict, [apptP]) :=
  (c6_reschedule_conflict_check [apptP] 100 .patient 0 5 reschedReq apptP "2099-01-01"
    ⟨"09:00", "10:00"⟩ demoDate (by decide) (by decide) (by decide) rfl (by decide)
    (by decide) rfl).2.1 (by decide) (by decide) (by decide) (by decide)

/-- C10 (confirmed): with both a new date and a new timeSlot supplied, the
update route answers 409 with the store unchanged exactly when some active
appointment of the same doctor on that date satisfies
start < new.end and new.start < end (the store's comparison on the stored
HH:MM strings); and this check is strictly stronger than the
identical-(start,end)-only uniqueness of the create path: a request exists
that the create-path duplicate test would admit but the update path rejects. -/
theorem c10_update_overlap_check :
    (∀ (store : Store) (uid : Nat) (role : Role) (now apptId : Nat) (req : UpdateRequest)
      (a : Appointment) (ds : String) (ts : TimeSlot) (d : Nat),
      store.find? (fun x => x.id == apptId) = some a →
      accessOk uid role a = true →
      canUpdate uid role a = true →
      req.appointmentDate = some ds →
      ds.data ≠ [] →
      parseDate? ds = some d →
      req.timeSlot = some ts →
      (updateAppointment store uid role now apptId req = (.conflict, store) ↔
        ∃ x ∈ store, x.doctor = a.doctor ∧ x.appointmentDate = d ∧
          x.status.isActive = true ∧ strLt x.timeSlot.start ts.«end» = true ∧
          strLt ts.start x.timeSlot.«end» = true)) ∧
      (insertConflict [apptP] (mkAppointment [apptP] 100 reqA demoDate) = false ∧
        updateAppointment [apptP] 100 .patient 0 5 reschedReq = (.conflict, [apptP])) := by
  constructor
  · intro store uid role now apptId req a ds ts d hfind hacc hcan hda hne hpd hts
    have hboth := updateAppointment_both now hfind hacc hcan hda hne hpd hts
    constructor
    · intro h
      rw [hboth] at h
      cases hcheck : checkAvailability store a.doctor d ts
      · exact checkAvailability_eq_false_iff.mp hcheck
      · rw [hcheck] at h
        simp at h
        exact absurd h finishUpdate_ne_conflict
    · intro hex
      rw [hboth, checkAvailability_eq_false_iff.mpr hex]
      rfl
  · exact ⟨by decide, by decide⟩

theorem c10_update_overlap_check_witness :
    updateAppointment [apptP] 100 .patient 0 5 reschedReq = (.conflict, [apptP]) ↔
      ∃ x ∈ [apptP], x.doctor = apptP.doctor ∧ x.appointmentDate = demoDate ∧
        x.status.isActive = true ∧
        strLt x.timeSlot.start (⟨"09:00", "10:00"⟩ : TimeSlot).«end» = true ∧
        strLt (⟨"09:00", "10:00"⟩ : TimeSlot).start x.timeSlot.«end» = true :=
  c10_update_overlap_check.1 [apptP] 100 .patient 0 5 reschedReq apptP "2099-01-01"
    ⟨"09:00", "10:00"⟩ demoDate (by decide) (by decide) (by decide) rfl (by decide)
    (by decide) rfl

/-- C7 (counterexample): a request whose timeSlot is "10:00"–"09:00" passes
the request-validation middleware (both times match the HH:MM pattern, which
is all the middleware checks) and is rejected only by the model's pre-save
hook, whose error reaches the generic handler: the outcome is the 500 server
error, not the claimed 400 validation rejection. -/
theorem c7_counterexample :
    createAppointment demoUsers [] 0 100 .patient reqBadOrder = (.serverError, []) ∧
      CreateOutcome.serverError ≠ CreateOutcome.badRequest := by
  exact ⟨by decide, by decide⟩

/-- C7 (amended): the create path rejects with the 400 validation outcome a
date that is unparsable or not strictly after now and a trimmed reason of
length outside [10,500] (validation passing forces the boundaries 10 and 500
to be accepted); but timeSlot.start ≥ timeSlot.end is not part of request
validation: it is caught by the schema's pre-save hook and surfaces as the
500 server-error outcome. -/
theorem c7_create_validation :
    ∀ (users : List User) (store : Store) (now pid : Nat) (req : CreateRequest),
      ((parseDate? req.appointmentDate = none ∨
          (∃ d, parseDate? req.appointmentDate = some d ∧ d ≤ now)) →
        createAppointment users store now pid .patient req = (.badRequest, store)) ∧
      (((jsTrim req.reason).length < 10 ∨ 500 < (jsTrim req.reason).length) →
        createAppointment users store now pid .patient req = (.badRequest, store)) ∧
      (validOk now req = true → doctorOk users req.doctor = true →
        ∀ sm em, jsTimeMinutes? req.timeSlot.start = some sm →
          jsTimeMinutes? req.timeSlot.«end» = some em → em ≤ sm →
          createAppointment users store now pid .patient req = (.serverError, store)) ∧
      (validOk now req = true →
        (10 ≤ (jsTrim req.reason).length ∧ (jsTrim req.reason).length ≤ 500) ∧
          ∃ d, parseDate? req.appointmentDate = some d ∧ now < d) := by
  intro users store now pid req
  refine ⟨?_, ?_, ?_, ?_⟩
  · intro hdate
    have hv : validOk now req = false := by
      unfold validOk
      rcases hdate with hnone | ⟨d, hsome, hle⟩
      · rw [hnone]
        simp
      · rw [hsome]
        simp [Nat.not_lt.mpr hle]
    unfold createAppointment
    simp [hv]
  · intro hreason
    have hv : validOk now req = false := by
      unfold validOk
      rcases hreason with hlt | hgt
      · simp [Nat.not_le.mpr hlt]
      · simp [Nat.not_le.mpr hgt]
    unfold createAppointment
    simp [hv]
  · intro hv hd sm em hsm hem hle
    have hp : preSaveRejects req.timeSlot = true := by
      unfold preSaveRejects
      rw [hsm, hem]
      simp [hle]
    unfold createAppointment
    simp [hv, hd, hp]
  · intro hv
    unfold validOk at hv
    cases hpd : parseDate? req.appointmentDate
    · rw [hpd] at hv
      simp at hv
    · next d =>
      rw [hpd] at hv
      simp only [Bool.and_eq_true, decide_eq_true_eq] at hv
      exact ⟨⟨hv.1.1.1.2, hv.1.1.2⟩, d, rfl, hv.1.1.1.1.1.1⟩

theorem c7_create_validation_witness :
    createAppointment demoUsers [] demoDate 100 .patient reqA = (.badRequest, []) ∧
      createAppointment demoUsers [] 0 100 .patient reqShortReason = (.badRequest, []) ∧
      createAppointment demoUsers [] 0 100 .patient reqBadOrder = (.serverError, []) :=
  ⟨(c7_create_validation demoUsers [] demoDate 100 reqA).1
      (Or.inr ⟨demoDate, by decide, Nat.le_refl demoDate⟩),
    (c7_create_validation demoUsers [] 0 100 reqShortReason).2.1 (Or.inl (by decide)),
    (c7_create_validation demoUsers [] 0 100 reqBadOrder).2.2.1 (by decide) (by decide)
      600 540 (by decide) (by decide) (by decide)⟩

/-- C8 (confirmed): for a parseable date, if the doctor has no active
appointment in that day window the availability query returns the full
twelve-slot working-hours template with an empty bookedSlots list; and in
general a slot is in availableSlots iff it is a template slot and no fetched
active appointment's timeSlot.start equals it. -/
theorem c8_availability_template :
    ∀ (store : Store) (did : Nat) (s : String) (d : Nat),
      parseDate? s = some d →
      ((∀ x ∈ store, x.doctor = did → d ≤ x.appointmentDate →
          x.appointmentDate < d + dayMs → x.status.isActive = false) →
        getAvailability store did (some s) = .ok workingHours []) ∧
      (∀ avail booked, getAvailability store did (some s) = .ok avail booked →
        ∀ slot, slot ∈ avail ↔ slot ∈ workingHours ∧ ∀ ts ∈ booked, ts.start ≠ slot) := by
  intro store did s d hpd
  constructor
  · intro hempty
    rw [getAvailability_eq hpd]
    have hfb : fetchBooked store did d = [] := by
      unfold fetchBooked
      rw [List.filter_eq_nil_iff]
      intro x hx hb
      rw [Bool.and_eq_true, Bool.and_eq_true, Bool.and_eq_true] at hb
      obtain ⟨⟨⟨h1, h2⟩, h3⟩, h4⟩ := hb
      have := hempty x hx (beq_iff_eq.mp h1) (of_decide_eq_true h2) (of_decide_eq_true h3)
      rw [this] at h4
      cases h4
    rw [hfb]
    simp
  · intro avail booked hav slot
    rw [getAvailability_eq hpd] at hav
    injection hav with h1 h2
    subst h1 h2
    rw [List.mem_filter]
    constructor
    · rintro ⟨hw, hb⟩
      rw [Bool.not_eq_eq_eq_not, Bool.not_true, List.any_eq_false] at hb
      refine ⟨hw, ?_⟩
      intro ts hts he
      have hthis := hb ts hts
      rw [he] at hthis
      exact hthis (beq_self_eq_true slot)
    · rintro ⟨hw, hneq⟩
      refine ⟨hw, ?_⟩
      rw [Bool.not_eq_eq_eq_not, Bool.not_true, List.any_eq_false]
      intro ts hts
      exact fun hbeq => absurd (beq_iff_eq.mp hbeq) (hneq ts hts)

theorem c8_availability_template_witness :
    getAvailability [apptScancelled] 1 (some "2099-01-01") = .ok workingHours [] :=
  (c8_availability_template [apptScancelled] 1 "2099-01-01" demoDate (by decide)).1
    (by decide)

/-- C9 (counterexample): an availability query whose date parameter is present
but unparsable returns the 500 server-error outcome (the invalid-date cast
throws inside the store query and is caught by the generic handler), not the
claimed 400-class validation outcome (`missingDate` is the route's only
400). -/
theorem c9_counterexample :
    getAvailability [] 1 (some "garbage") = .serverError ∧
      AvailOutcome.serverError ≠ AvailOutcome.missingDate := by
  exact ⟨by decide, by decide⟩

/-- C9 (amended): a present but unparsable (nonempty) date makes the
availability route fail with the generic 500 server-error outcome — no slot
list is returned — while only a missing (or empty, hence falsy) date
parameter produces the 400 response. -/
theorem c9_unparsable_date :
    ∀ (store : Store) (did : Nat) (s : String),
      parseDate? s = none → s.data ≠ [] →
      getAvailability store did (some s) = .serverError ∧
        getAvailability store did none = .missingDate := by
  intro store did s hpd hne
  constructor
  · unfold getAvailability
    simp [hne, hpd]
  · rfl

theorem c9_unparsable_date_witness :
    getAvailability [apptP] 1 (some "garbage") = .serverError ∧
      getAvailability [apptP] 1 none = .missingDate :=
  c9_unparsable_date [apptP] 1 "garbage" (by decide) (by decide)

end Healem
